import Mathlib

/-!
Shallow embedding of the drivent booking subsystem: the data model, the
booking/room repositories, the booking service
(src/services/booking-service/index.ts) and the booking controller
(src/controllers/booking-controller.ts).  The relational store is a record
of row lists together with the schema constraints the database enforces
(primary-key uniqueness of `id` columns, monotone id allocation).  Service
functions are state-passing functions returning `Except SvcError`; a thrown
service error is the `.error` case, and a non-service exception escaping to
the controller (e.g. a null dereference) is `.internal`.
-/

deriving instance DecidableEq for Except

namespace Drivent

/-- Room row: {id, hotelId, name, capacity, createdAt, updatedAt}.
`capacity` is a database Int (JS number arithmetic in the service). -/
structure Room where
  id : Nat
  hotelId : Nat
  name : String
  capacity : Int
  createdAt : Nat
  updatedAt : Nat
  deriving DecidableEq

/-- Booking row: {id, userId, roomId, createdAt, updatedAt}. -/
structure Booking where
  id : Nat
  userId : Nat
  roomId : Nat
  createdAt : Nat
  updatedAt : Nat
  deriving DecidableEq

/-- Ticket status enum from the Prisma schema. -/
inductive TicketStatus where
  | RESERVED
  | PAID
  deriving DecidableEq

/-- TicketType row fields the service reads. -/
structure TicketType where
  isRemote : Bool
  includesHotel : Bool
  deriving DecidableEq

/-- Ticket with its embedded TicketType, as the ticket service returns it. -/
structure Ticket where
  userId : Nat
  status : TicketStatus
  TicketType : TicketType
  deriving DecidableEq

/-- The relational store.  The three proof fields are the schema
constraints the database itself enforces: `id` is the primary key of the
Room and Booking tables, and booking ids are allocated below
`nextBookingId` so a fresh insert gets a fresh id. -/
structure DbState where
  rooms : List Room
  bookings : List Booking
  tickets : List Ticket
  nextBookingId : Nat
  rooms_nodup : (rooms.map Room.id).Nodup
  bookings_nodup : (bookings.map Booking.id).Nodup
  bookings_lt_next : ∀ b ∈ bookings, b.id < nextBookingId

/-- Errors thrown by the service layer (`@/errors`), plus `.internal` for a
non-service exception (a crash such as reading a field of `null`) escaping
to the controller's catch block. -/
inductive SvcError where
  | notFound
  | unauthorized
  | forbidden
  | internal
  deriving DecidableEq

/-- The `error.name` the controller's catch blocks dispatch on. -/
def SvcError.name : SvcError → String
  | .notFound => "NotFoundError"
  | .unauthorized => "UnauthorizedError"
  | .forbidden => "ForbiddenError"
  | .internal => "TypeError"

/-- The Prisma `include: { Room: true }` join: the room referenced by a
booking's `roomId` foreign key. -/
def roomOfBooking (s : DbState) (b : Booking) : Option Room :=
  s.rooms.find? (fun r => r.id == b.roomId)

namespace bookingRepository

/-- Modelled from the spec: the booking repository is not under src/;
§4.3 "find booking by user id (with room)" — first booking row whose
`userId` matches (the embedded Room is recovered via `roomOfBooking`). -/
def findBookingByUserId (s : DbState) (userId : Nat) : Option Booking :=
  s.bookings.find? (fun b => b.userId == userId)

/-- Modelled from the spec: §4.3 "find bookings by room id (with room)" —
all booking rows whose `roomId` matches. -/
def findBookingByRoomId (s : DbState) (roomId : Nat) : List Booking :=
  s.bookings.filter (fun b => b.roomId == roomId)

/-- Modelled from the spec: §4.3 "find booking by id". -/
def findBookingByBookingId (s : DbState) (bookingId : Nat) : Option Booking :=
  s.bookings.find? (fun b => b.id == bookingId)

/-- Modelled from the spec: §4.3 "insert booking" — appends a fresh row
with the next free id and returns it (`prisma.booking.create`). -/
def insertBooking (s : DbState) (userId roomId : Nat) :
    Option Booking × DbState :=
  let b : Booking :=
    { id := s.nextBookingId, userId := userId, roomId := roomId,
      createdAt := 0, updatedAt := 0 }
  (some b,
   { rooms := s.rooms
     bookings := s.bookings ++ [b]
     tickets := s.tickets
     nextBookingId := s.nextBookingId + 1
     rooms_nodup := s.rooms_nodup
     bookings_nodup := by
       have hfresh : ∀ x ∈ s.bookings, ¬x.id = s.nextBookingId := by
         intro x hx he
         exact absurd (he ▸ s.bookings_lt_next x hx) (lt_irrefl _)
       simpa [List.nodup_append] using ⟨s.bookings_nodup, hfresh⟩
     bookings_lt_next := by
       intro b' hb'
       rcases List.mem_append.mp hb' with h | h
       · exact Nat.lt_succ_of_lt (s.bookings_lt_next b' h)
       · simp only [List.mem_singleton] at h
         subst h
         exact Nat.lt_succ_self _ })

/-- Modelled from the spec: §4.3 "update booking's room" — rewrites the
`roomId` of the row with the given id and returns the updated row
(`prisma.booking.update where id`); `none` when no such row exists (Prisma
then throws a non-service error). -/
def updateBooking (s : DbState) (bookingId roomId : Nat) :
    Option Booking × DbState :=
  match s.bookings.find? (fun b => b.id == bookingId) with
  | none => (none, s)
  | some b =>
    (some { b with roomId := roomId },
     { rooms := s.rooms
       bookings := s.bookings.map
         (fun x => if x.id == bookingId then { x with roomId := roomId } else x)
       tickets := s.tickets
       nextBookingId := s.nextBookingId
       rooms_nodup := s.rooms_nodup
       bookings_nodup := by
         have hids : (s.bookings.map
             (fun x => if x.id == bookingId then { x with roomId := roomId } else x)).map
               Booking.id = s.bookings.map Booking.id := by
           simp only [List.map_map]
           apply List.map_congr_left
           intro x _
           by_cases h : x.id = bookingId <;> simp [h]
         rw [hids]
         exact s.bookings_nodup
       bookings_lt_next := by
         intro b' hb'
         rcases List.mem_map.mp hb' with ⟨x, hx, hfx⟩
         subst hfx
         have hlt := s.bookings_lt_next x hx
         by_cases h : x.id = bookingId <;> simp [h] <;> omega })

end bookingRepository

namespace roomRepository

/-- src/repositories/room-repository/index.ts `listRoom`:
`prisma.room.findFirst({ where: { id: roomId } })`. -/
def listRoom (s : DbState) (roomId : Nat) : Option Room :=
  s.rooms.find? (fun r => r.id == roomId)

end roomRepository

namespace ticketService

/-- Modelled from the spec: §2 "Ticket Service (external): supplies ticket
+ ticket-type for a user"; absent enrollment/ticket data makes it fail
NotFound. -/
def getTicketByUserId (s : DbState) (userId : Nat) : Except SvcError Ticket :=
  match s.tickets.find? (fun t => t.userId == userId) with
  | none => .error .notFound
  | some t => .ok t

end ticketService

/-- The `{id, Room}` object `getBookingByUserId` builds as its response:
exactly the fields `id` and `Room` of the booking. -/
structure BookingResponse where
  id : Nat
  Room : Option Room
  deriving DecidableEq

namespace BookingService

/-- Service `getBookingByUserId`: NotFound when the user has no booking,
otherwise the `{id, Room}` projection of the booking.  Read-only: the
returned state is the input state. -/
def getBookingByUserId (s : DbState) (userId : Nat) :
    Except SvcError BookingResponse × DbState :=
  match bookingRepository.findBookingByUserId s userId with
  | none => (.error .notFound, s)
  | some booking =>
    (.ok { id := booking.id, Room := roomOfBooking s booking }, s)

/-- Service `validateTicket`: Unauthorized unless the ticket type includes
hotel, is not remote, and the status is not RESERVED. -/
def validateTicket (s : DbState) (userId : Nat) : Except SvcError Ticket :=
  match ticketService.getTicketByUserId s userId with
  | .error e => .error e
  | .ok ticket =>
    if !ticket.TicketType.includesHotel || ticket.TicketType.isRemote
        || ticket.status == TicketStatus.RESERVED then
      .error .unauthorized
    else
      .ok ticket

/-- Service `validateBookingByRoomId`: loads the bookings of the room;
NotFound on zero rows; reads the capacity off the Room embedded in the
first row (`.internal` models the crash were that Room null, which the
foreign key rules out); Forbidden when `capacity - bookingQuantity < 1`. -/
def validateBookingByRoomId (s : DbState) (roomId : Nat) :
    Except SvcError (List Booking) :=
  let booking := bookingRepository.findBookingByRoomId s roomId
  match booking with
  | [] => .error .notFound
  | b0 :: _ =>
    match roomOfBooking s b0 with
    | none => .error .internal
    | some room =>
      if room.capacity - (booking.length : Int) < 1 then
        .error .forbidden
      else
        .ok booking

/-- Service `validateBookingByUserId`: Forbidden when the user already has
a booking. -/
def validateBookingByUserId (s : DbState) (userId : Nat) :
    Except SvcError Unit :=
  match bookingRepository.findBookingByUserId s userId with
  | some _ => .error .forbidden
  | none => .ok ()

/-- Service `postBooking`: validateTicket, then validateBookingByRoomId,
then validateBookingByUserId, then insert; Forbidden if the insert returns
nothing; returns the new booking's id. -/
def postBooking (s : DbState) (userId roomId : Nat) :
    Except SvcError Nat × DbState :=
  match validateTicket s userId with
  | .error e => (.error e, s)
  | .ok _ =>
    match validateBookingByRoomId s roomId with
    | .error e => (.error e, s)
    | .ok _ =>
      match validateBookingByUserId s userId with
      | .error e => (.error e, s)
      | .ok _ =>
        match bookingRepository.insertBooking s userId roomId with
        | (none, s') => (.error .forbidden, s')
        | (some booking, s') => (.ok booking.id, s')

/-- Service `checkUserHasBooking`: Forbidden when the user has no
booking; returns it otherwise. -/
def checkUserHasBooking (s : DbState) (userId : Nat) :
    Except SvcError Booking :=
  match bookingRepository.findBookingByUserId s userId with
  | none => .error .forbidden
  | some bookingFromUser => .ok bookingFromUser

/-- Service `checkRoomExists`: NotFound when `listRoom` finds no room. -/
def checkRoomExists (s : DbState) (roomId : Nat) : Except SvcError Room :=
  match roomRepository.listRoom s roomId with
  | none => .error .notFound
  | some room => .ok room

/-- Service `checkBookingExists`: NotFound when no booking has the id. -/
def checkBookingExists (s : DbState) (bookingId : Nat) :
    Except SvcError Booking :=
  match bookingRepository.findBookingByBookingId s bookingId with
  | none => .error .notFound
  | some booking => .ok booking

/-- Service `putBooking`: checkUserHasBooking, checkRoomExists,
checkBookingExists, Forbidden when the user's booking id differs from the
given one, re-validate room capacity, then update the booking's room. -/
def putBooking (s : DbState) (userId roomId bookingId : Nat) :
    Except SvcError Booking × DbState :=
  match checkUserHasBooking s userId with
  | .error e => (.error e, s)
  | .ok bookingFromUser =>
    match checkRoomExists s roomId with
    | .error e => (.error e, s)
    | .ok _room =>
      match checkBookingExists s bookingId with
      | .error e => (.error e, s)
      | .ok booking =>
        if bookingFromUser.id != booking.id then
          (.error .forbidden, s)
        else
          match validateBookingByRoomId s roomId with
          | .error e => (.error e, s)
          | .ok _ =>
            match bookingRepository.updateBooking s bookingId roomId with
            | (none, s') => (.error .internal, s')
            | (some updatedBooking, s') => (.ok updatedBooking, s')

end BookingService

namespace httpStatus

def OK : Nat := 200

def UNAUTHORIZED : Nat := 401

def FORBIDDEN : Nat := 403

def NOT_FOUND : Nat := 404

end httpStatus

/-- An HTTP reply: status code plus optional body (absent on
`sendStatus`). -/
structure HttpReply (α : Type) where
  status : Nat
  body : Option α
  deriving DecidableEq

namespace BookingController

/-- Controller `getBooking`: 200 with the service response on success,
404 on any thrown error. -/
def getBooking (s : DbState) (userId : Nat) :
    HttpReply BookingResponse × DbState :=
  match BookingService.getBookingByUserId s userId with
  | (.ok booking, s') =>
    ({ status := httpStatus.OK, body := some booking }, s')
  | (.error _, s') =>
    ({ status := httpStatus.NOT_FOUND, body := none }, s')

/-- Controller `postBooking`: 200 with `{bookingId}` on success; catch
block dispatches on `error.name`: UnauthorizedError to 401,
ForbiddenError to 403, anything else to 404. -/
def postBooking (s : DbState) (userId roomId : Nat) :
    HttpReply Nat × DbState :=
  match BookingService.postBooking s userId roomId with
  | (.ok bookingId, s') =>
    ({ status := httpStatus.OK, body := some bookingId }, s')
  | (.error e, s') =>
    if e.name == "UnauthorizedError" then
      ({ status := httpStatus.UNAUTHORIZED, body := none }, s')
    else if e.name == "ForbiddenError" then
      ({ status := httpStatus.FORBIDDEN, body := none }, s')
    else
      ({ status := httpStatus.NOT_FOUND, body := none }, s')

/-- Controller `putBooking`: 200 with `{bookingId: updatedBooking.id}` on
success; catch block maps ForbiddenError to 403 and anything else to 404
(no 401 branch). -/
def putBooking (s : DbState) (userId roomId bookingId : Nat) :
    HttpReply Nat × DbState :=
  match BookingService.putBooking s userId roomId bookingId with
  | (.ok updatedBooking, s') =>
    ({ status := httpStatus.OK, body := some updatedBooking.id }, s')
  | (.error e, s') =>
    if e.name == "ForbiddenError" then
      ({ status := httpStatus.FORBIDDEN, body := none }, s')
    else
      ({ status := httpStatus.NOT_FOUND, body := none }, s')

end BookingController

/-- A concrete store used to instantiate the theorems: three rooms (room 7
with capacity 3 holding one booking, room 8 full at capacity 1, room 9
empty with capacity 2), bookings 1 (user 2, room 7) and 2 (user 3, room 8),
eligible PAID tickets for users 1 and 2, a RESERVED ticket for user 4. -/
def wsBase : DbState :=
  { rooms :=
      [{ id := 7, hotelId := 1, name := "701", capacity := 3, createdAt := 0, updatedAt := 0 },
       { id := 8, hotelId := 1, name := "801", capacity := 1, createdAt := 0, updatedAt := 0 },
       { id := 9, hotelId := 1, name := "901", capacity := 2, createdAt := 0, updatedAt := 0 }]
    bookings :=
      [{ id := 1, userId := 2, roomId := 7, createdAt := 0, updatedAt := 0 },
       { id := 2, userId := 3, roomId := 8, createdAt := 0, updatedAt := 0 }]
    tickets :=
      [{ userId := 1, status := .PAID, TicketType := { isRemote := false, includesHotel := true } },
       { userId := 2, status := .PAID, TicketType := { isRemote := false, includesHotel := true } },
       { userId := 4, status := .RESERVED, TicketType := { isRemote := false, includesHotel := true } }]
    nextBookingId := 10
    rooms_nodup := by decide
    bookings_nodup := by decide
    bookings_lt_next := by decide }

/-- Intended invariant: no room holds more bookings than its capacity. -/
def roomCapacityInvariant (s : DbState) : Prop :=
  ∀ room ∈ s.rooms,
    ((s.bookings.filter (fun b => b.roomId == room.id)).length : Int) ≤ room.capacity

/-- Intended invariant: no two bookings belong to the same user. -/
def oneBookingPerUser (s : DbState) : Prop :=
  s.bookings.Pairwise (fun b1 b2 => b1.userId ≠ b2.userId)

example : BookingService.validateTicket wsBase 4 = .error .unauthorized := by decide

example : BookingService.validateTicket wsBase 1 =
    .ok { userId := 1, status := .PAID,
          TicketType := { isRemote := false, includesHotel := true } } := by decide

example : BookingService.validateBookingByRoomId wsBase 8 = .error .forbidden := by decide

example : BookingService.validateBookingByRoomId wsBase 9 = .error .notFound := by decide

example : (BookingService.postBooking wsBase 1 7).1 = .ok 10 := by decide

example : (BookingService.postBooking wsBase 4 8).1 = .error .unauthorized := by decide

example : (BookingService.putBooking wsBase 2 7 1).1 =
    .ok { id := 1, userId := 2, roomId := 7, createdAt := 0, updatedAt := 0 } := by decide

/-- C4: when the ticket service yields the user's ticket `t`,
`validateTicket` throws Unauthorized exactly when `t` fails eligibility
(PAID status, hotel-inclusive, non-remote), and returns `t` when `t` is
eligible; hence a RESERVED, remote, or hotel-less ticket is rejected with
Unauthorized. -/
theorem validateTicket_unauthorized_iff (s : DbState) (u : Nat) (t : Ticket)
    (ht : ticketService.getTicketByUserId s u = .ok t) :
    (BookingService.validateTicket s u = .error .unauthorized ↔
      ¬(t.status = TicketStatus.PAID ∧ t.TicketType.includesHotel = true ∧
        t.TicketType.isRemote = false)) ∧
    ((t.status = TicketStatus.PAID ∧ t.TicketType.includesHotel = true ∧
        t.TicketType.isRemote = false) →
      BookingService.validateTicket s u = .ok t) := by
  obtain ⟨tu, st, rem, inc⟩ := t
  cases st <;> cases rem <;> cases inc <;>
    simp [BookingService.validateTicket, ht]

/-- Witness for C4 at a concrete store: user 4 holds a RESERVED (but
hotel-inclusive, non-remote) ticket and `validateTicket` throws
Unauthorized on it. -/
theorem validateTicket_unauthorized_iff_witness :
    BookingService.validateTicket wsBase 4 = .error .unauthorized :=
  (validateTicket_unauthorized_iff wsBase 4
    { userId := 4, status := .RESERVED,
      TicketType := { isRemote := false, includesHotel := true } }
    (by decide)).1.mpr (by decide)

/-- C9: `getBookingByUserId` throws NotFound exactly when the user has no
booking, and otherwise returns the `BookingResponse` projection of the
booking — a value of a type holding exactly the fields `id` and `Room`
(no `userId`, `roomId`, `createdAt` or `updatedAt`) — without touching
the store. -/
theorem getBookingByUserId_spec (s : DbState) (u : Nat) :
    (BookingService.getBookingByUserId s u = (.error .notFound, s) ↔
      bookingRepository.findBookingByUserId s u = none) ∧
    (∀ b, bookingRepository.findBookingByUserId s u = some b →
      BookingService.getBookingByUserId s u =
        (.ok { id := b.id, Room := roomOfBooking s b }, s)) := by
  cases hb : bookingRepository.findBookingByUserId s u <;>
    simp [BookingService.getBookingByUserId, hb]

/-- Witness for C9 at a concrete store: user 2's booking is row 1 in room
7, and the response carries exactly its id and room. -/
theorem getBookingByUserId_spec_witness :
    BookingService.getBookingByUserId wsBase 2 =
      (.ok { id := (1 : Nat),
             Room := roomOfBooking wsBase
               { id := 1, userId := 2, roomId := 7, createdAt := 0, updatedAt := 0 } },
       wsBase) :=
  (getBookingByUserId_spec wsBase 2).2
    { id := 1, userId := 2, roomId := 7, createdAt := 0, updatedAt := 0 } (by decide)

/-- When `updateBooking` finds no row to update it leaves the store
untouched. -/
theorem updateBooking_none_state (s : DbState) (bid r : Nat)
    (h : (bookingRepository.updateBooking s bid r).1 = none) :
    (bookingRepository.updateBooking s bid r).2 = s := by
  unfold bookingRepository.updateBooking at h ⊢
  cases hf : s.bookings.find? (fun b => b.id == bid) <;> simp [hf] at h ⊢

/-- C10: whenever `postBooking` or `putBooking` throws, the returned store
is exactly the input store (all validation reads precede the single
write), and `getBookingByUserId` never modifies the store. -/
theorem ops_no_write_on_error (s : DbState) (u r bid : Nat) :
    (∀ e, (BookingService.postBooking s u r).1 = .error e →
      (BookingService.postBooking s u r).2 = s) ∧
    (∀ e, (BookingService.putBooking s u r bid).1 = .error e →
      (BookingService.putBooking s u r bid).2 = s) ∧
    (BookingService.getBookingByUserId s u).2 = s := by
  refine ⟨?_, ?_, ?_⟩
  · intro e he
    unfold BookingService.postBooking at he ⊢
    rcases h1 : BookingService.validateTicket s u with e1 | t1
    · rfl
    rcases h2 : BookingService.validateBookingByRoomId s r with e2 | bs
    · rfl
    rcases h3 : BookingService.validateBookingByUserId s u with e3 | u3
    · rfl
    simp [h1, h2, h3, bookingRepository.insertBooking] at he
  · intro e he
    unfold BookingService.putBooking at he ⊢
    rcases h1 : BookingService.checkUserHasBooking s u with e1 | b1
    · rfl
    rcases h2 : BookingService.checkRoomExists s r with e2 | room
    · rfl
    rcases h3 : BookingService.checkBookingExists s bid with e3 | b3
    · rfl
    by_cases hid : (b1.id != b3.id) = true
    · simp [hid]
    rcases h4 : BookingService.validateBookingByRoomId s r with e4 | bs
    · simp [hid]
    rcases h5 : bookingRepository.updateBooking s bid r with ⟨ob, s2⟩
    cases ob
    · have hstate := updateBooking_none_state s bid r (by rw [h5])
      rw [h5] at hstate
      simp at hstate
      simp [hid, h5]
      exact hstate
    · have hideq : b1.id = b3.id := by simpa using hid
      simp [h1, h2, h3, h4, h5, hideq] at he
  · unfold BookingService.getBookingByUserId
    cases hb : bookingRepository.findBookingByUserId s u <;> simp [hb]

/-- Witness for C10 at a concrete store: posting to the full room 8 throws
and the store comes back unchanged; a read leaves it unchanged too. -/
theorem ops_no_write_on_error_witness :
    (BookingService.postBooking wsBase 1 8).2 = wsBase ∧
    (BookingService.putBooking wsBase 5 7 1).2 = wsBase ∧
    (BookingService.getBookingByUserId wsBase 2).2 = wsBase :=
  ⟨(ops_no_write_on_error wsBase 1 8 0).1 .forbidden (by decide),
   (ops_no_write_on_error wsBase 5 7 1).2.1 .forbidden (by decide),
   (ops_no_write_on_error wsBase 2 0 0).2.2⟩

/-- C3: with `room` the room row carrying `roomId` (the room the foreign
key embeds in every returned booking), `validateBookingByRoomId` throws
NotFound exactly when no booking references the room, otherwise throws
Forbidden exactly when `capacity - bookingCount < 1`, and otherwise
returns the booking list. -/
theorem validateBookingByRoomId_spec (s : DbState) (roomId : Nat) (room : Room)
    (hroom : s.rooms.find? (fun r => r.id == roomId) = some room) :
    (BookingService.validateBookingByRoomId s roomId = .error .notFound ↔
      bookingRepository.findBookingByRoomId s roomId = []) ∧
    (bookingRepository.findBookingByRoomId s roomId ≠ [] →
      (BookingService.validateBookingByRoomId s roomId = .error .forbidden ↔
        room.capacity -
          ((bookingRepository.findBookingByRoomId s roomId).length : Int) < 1)) ∧
    (bookingRepository.findBookingByRoomId s roomId ≠ [] →
      ¬(room.capacity -
          ((bookingRepository.findBookingByRoomId s roomId).length : Int) < 1) →
      BookingService.validateBookingByRoomId s roomId =
        .ok (bookingRepository.findBookingByRoomId s roomId)) := by
  unfold BookingService.validateBookingByRoomId
  cases hbs : bookingRepository.findBookingByRoomId s roomId with
  | nil => simp [hbs]
  | cons b0 rest =>
    have hb0 : b0.roomId = roomId := by
      have hmem : b0 ∈ bookingRepository.findBookingByRoomId s roomId := by
        rw [hbs]
        exact List.mem_cons_self _ _
      unfold bookingRepository.findBookingByRoomId at hmem
      simpa using List.of_mem_filter hmem
    have hro : roomOfBooking s b0 = some room := by
      unfold roomOfBooking
      rw [hb0]
      exact hroom
    simp only [hbs, hro]
    by_cases hcap : room.capacity - ((b0 :: rest).length : Int) < 1
    · rw [if_pos hcap]
      simp [hcap]
      simp only [List.length_cons] at hcap
      push_cast at hcap ⊢
      omega
    · rw [if_neg hcap]
      simp [hcap]
      simp only [List.length_cons] at hcap
      push_cast at hcap ⊢
      omega

/-- Witness for C3 at a concrete store: room 8 has capacity 1 and one
booking, so `1 - 1 < 1` makes the validation throw Forbidden. -/
theorem validateBookingByRoomId_spec_witness :
    BookingService.validateBookingByRoomId wsBase 8 = .error .forbidden :=
  ((validateBookingByRoomId_spec wsBase 8
      { id := 8, hotelId := 1, name := "801", capacity := 1, createdAt := 0, updatedAt := 0 }
      (by decide)).2.1 (by decide)).mpr (by decide)

/-- C1: `postBooking` runs ticket eligibility, then room capacity, then
user uniqueness, in that order, each earlier failure masking the later
ones; only when all pass does it insert, returning the new id, and the
code's null-check on the insert result maps a missing row to Forbidden. -/
theorem postBooking_guard_order (s : DbState) (u r : Nat) :
    (∀ e, BookingService.validateTicket s u = .error e →
      BookingService.postBooking s u r = (.error e, s)) ∧
    (∀ t e, BookingService.validateTicket s u = .ok t →
      BookingService.validateBookingByRoomId s r = .error e →
      BookingService.postBooking s u r = (.error e, s)) ∧
    (∀ t bs, BookingService.validateTicket s u = .ok t →
      BookingService.validateBookingByRoomId s r = .ok bs →
      BookingService.validateBookingByUserId s u = .error .forbidden →
      BookingService.postBooking s u r = (.error .forbidden, s)) ∧
    (∀ t bs, BookingService.validateTicket s u = .ok t →
      BookingService.validateBookingByRoomId s r = .ok bs →
      BookingService.validateBookingByUserId s u = .ok () →
      (∀ b, (bookingRepository.insertBooking s u r).1 = some b →
        BookingService.postBooking s u r =
          (.ok b.id, (bookingRepository.insertBooking s u r).2)) ∧
      ((bookingRepository.insertBooking s u r).1 = none →
        (BookingService.postBooking s u r).1 = .error .forbidden)) := by
  refine ⟨?_, ?_, ?_, ?_⟩
  · intro e h1
    simp [BookingService.postBooking, h1]
  · intro t e h1 h2
    simp [BookingService.postBooking, h1, h2]
  · intro t bs h1 h2 h3
    simp [BookingService.postBooking, h1, h2, h3]
  · intro t bs h1 h2 h3
    constructor
    · intro b hb
      unfold BookingService.postBooking
      rcases hins : bookingRepository.insertBooking s u r with ⟨ob, s2⟩
      rw [hins] at hb
      simp at hb
      subst hb
      simp [h1, h2, h3, hins]
    · intro hnone
      rcases hins : bookingRepository.insertBooking s u r with ⟨ob, s2⟩
      rw [hins] at hnone
      simp at hnone
      subst hnone
      simp [bookingRepository.insertBooking] at hins

/-- Witness for C1 at a concrete store: user 4's ticket is ineligible and
room 8 is full, and `postBooking` reports Unauthorized — the first
failing guard — not Forbidden. -/
theorem postBooking_guard_order_witness :
    BookingService.validateBookingByRoomId wsBase 8 = .error .forbidden ∧
    BookingService.postBooking wsBase 4 8 = (.error .unauthorized, wsBase) :=
  ⟨by decide, (postBooking_guard_order wsBase 4 8).1 .unauthorized (by decide)⟩

/-- C2: `putBooking` checks, in order: the user has a booking (else
Forbidden), the room exists (else NotFound), the booking id exists (else
NotFound), the user's booking id equals the given id (else Forbidden),
and the room-capacity validation; only then does it rewrite the booking's
room reference to `roomId` and return the updated row. -/
theorem putBooking_check_order (s : DbState) (u r bid : Nat) :
    (bookingRepository.findBookingByUserId s u = none →
      BookingService.putBooking s u r bid = (.error .forbidden, s)) ∧
    (∀ b, bookingRepository.findBookingByUserId s u = some b →
      roomRepository.listRoom s r = none →
      BookingService.putBooking s u r bid = (.error .notFound, s)) ∧
    (∀ b room, bookingRepository.findBookingByUserId s u = some b →
      roomRepository.listRoom s r = some room →
      bookingRepository.findBookingByBookingId s bid = none →
      BookingService.putBooking s u r bid = (.error .notFound, s)) ∧
    (∀ b room b2, bookingRepository.findBookingByUserId s u = some b →
      roomRepository.listRoom s r = some room →
      bookingRepository.findBookingByBookingId s bid = some b2 →
      b.id ≠ b2.id →
      BookingService.putBooking s u r bid = (.error .forbidden, s)) ∧
    (∀ b room b2 e, bookingRepository.findBookingByUserId s u = some b →
      roomRepository.listRoom s r = some room →
      bookingRepository.findBookingByBookingId s bid = some b2 →
      b.id = b2.id →
      BookingService.validateBookingByRoomId s r = .error e →
      BookingService.putBooking s u r bid = (.error e, s)) ∧
    (∀ b room b2 bs, bookingRepository.findBookingByUserId s u = some b →
      roomRepository.listRoom s r = some room →
      bookingRepository.findBookingByBookingId s bid = some b2 →
      b.id = b2.id →
      BookingService.validateBookingByRoomId s r = .ok bs →
      BookingService.putBooking s u r bid =
        (.ok { b2 with roomId := r }, (bookingRepository.updateBooking s bid r).2) ∧
      ∀ b3 ∈ (BookingService.putBooking s u r bid).2.bookings,
        b3.id = bid → b3.roomId = r) := by
  refine ⟨?_, ?_, ?_, ?_, ?_, ?_⟩
  · intro h1
    simp [BookingService.putBooking, BookingService.checkUserHasBooking, h1]
  · intro b h1 h2
    simp [BookingService.putBooking, BookingService.checkUserHasBooking,
      BookingService.checkRoomExists, h1, h2]
  · intro b room h1 h2 h3
    simp [BookingService.putBooking, BookingService.checkUserHasBooking,
      BookingService.checkRoomExists, BookingService.checkBookingExists, h1, h2, h3]
  · intro b room b2 h1 h2 h3 hne
    simp [BookingService.putBooking, BookingService.checkUserHasBooking,
      BookingService.checkRoomExists, BookingService.checkBookingExists, h1, h2, h3, hne]
  · intro b room b2 e h1 h2 h3 heq h4
    simp [BookingService.putBooking, BookingService.checkUserHasBooking,
      BookingService.checkRoomExists, BookingService.checkBookingExists,
      h1, h2, h3, heq, h4]
  · intro b room b2 bs h1 h2 h3 heq h4
    have hupd : bookingRepository.updateBooking s bid r =
        (some { b2 with roomId := r },
         (bookingRepository.updateBooking s bid r).2) := by
      unfold bookingRepository.updateBooking
      unfold bookingRepository.findBookingByBookingId at h3
      simp [h3]
    have hput : BookingService.putBooking s u r bid =
        (.ok { b2 with roomId := r }, (bookingRepository.updateBooking s bid r).2) := by
      unfold BookingService.putBooking
      rw [hupd]
      simp [BookingService.checkUserHasBooking, BookingService.checkRoomExists,
        BookingService.checkBookingExists, h1, h2, h3, heq, h4]
    refine ⟨hput, ?_⟩
    intro b3 hb3 hbid
    rw [hput] at hb3
    unfold bookingRepository.updateBooking at hb3
    unfold bookingRepository.findBookingByBookingId at h3
    rw [h3] at hb3
    simp only at hb3
    rcases List.mem_map.mp hb3 with ⟨x, hx, hfx⟩
    subst hfx
    by_cases hxid : x.id = bid
    · simp [hxid]
    · simp [hxid] at hbid ⊢

/-- Witness for C2 at a concrete store: user 2 owns booking 1 and moves it
(within capacity) to room 7; every check passes and the booking's room
reference is rewritten. -/
theorem putBooking_check_order_witness :
    BookingService.putBooking wsBase 2 7 1 =
      (.ok { id := 1, userId := 2, roomId := 7, createdAt := 0, updatedAt := 0 },
       (bookingRepository.updateBooking wsBase 1 7).2) :=
  ((putBooking_check_order wsBase 2 7 1).2.2.2.2.2
    { id := 1, userId := 2, roomId := 7, createdAt := 0, updatedAt := 0 }
    { id := 7, hotelId := 1, name := "701", capacity := 3, createdAt := 0, updatedAt := 0 }
    { id := 1, userId := 2, roomId := 7, createdAt := 0, updatedAt := 0 }
    [{ id := 1, userId := 2, roomId := 7, createdAt := 0, updatedAt := 0 }]
    (by decide) (by decide) (by decide) (by decide) (by decide)).1

/-- C5: when a room exists but no booking references it, `postBooking`
throws NotFound even for an eligible bookingless caller, `putBooking`
throws NotFound for a caller moving their booking there, and `postBooking`
can only succeed for a room already holding at least one booking. -/
theorem empty_room_never_bookable (s : DbState) (u r : Nat) :
    (∀ t room, BookingService.validateTicket s u = .ok t →
      roomRepository.listRoom s r = some room →
      bookingRepository.findBookingByUserId s u = none →
      bookingRepository.findBookingByRoomId s r = [] →
      BookingService.postBooking s u r = (.error .notFound, s)) ∧
    (∀ b room, bookingRepository.findBookingByUserId s u = some b →
      roomRepository.listRoom s r = some room →
      bookingRepository.findBookingByRoomId s r = [] →
      BookingService.putBooking s u r b.id = (.error .notFound, s)) ∧
    (∀ i s2, BookingService.postBooking s u r = (.ok i, s2) →
      bookingRepository.findBookingByRoomId s r ≠ []) := by
  refine ⟨?_, ?_, ?_⟩
  · intro t room h1 _h2 _h3 hempty
    have hval : BookingService.validateBookingByRoomId s r = .error .notFound := by
      unfold BookingService.validateBookingByRoomId
      simp [hempty]
    simp [BookingService.postBooking, h1, hval]
  · intro b room h1 h2 hempty
    have hb_mem : b ∈ s.bookings := List.mem_of_find?_eq_some h1
    obtain ⟨b2, hb2⟩ : ∃ b2, s.bookings.find? (fun x => x.id == b.id) = some b2 := by
      have hsome : (s.bookings.find? (fun x => x.id == b.id)).isSome := by
        rw [List.find?_isSome]
        exact ⟨b, hb_mem, by simp⟩
      exact Option.isSome_iff_exists.mp hsome
    have hid : b2.id = b.id := by
      have hp := List.find?_some hb2
      simpa using hp
    have hval : BookingService.validateBookingByRoomId s r = .error .notFound := by
      unfold BookingService.validateBookingByRoomId
      simp [hempty]
    simp [BookingService.putBooking, BookingService.checkUserHasBooking,
      BookingService.checkRoomExists, BookingService.checkBookingExists,
      bookingRepository.findBookingByBookingId, h1, h2, hb2, hid, hval]
  · intro i s2 hpost hempty
    have hval : BookingService.validateBookingByRoomId s r = .error .notFound := by
      unfold BookingService.validateBookingByRoomId
      simp [hempty]
    unfold BookingService.postBooking at hpost
    rcases h1 : BookingService.validateTicket s u with e | t
    · simp [h1] at hpost
    · simp [h1, hval] at hpost

/-- Witness for C5 at a concrete store: room 9 exists, has capacity 2 and
no booking; eligible bookingless user 1 cannot post into it, and user 2
cannot move booking 1 into it — both get NotFound. -/
theorem empty_room_never_bookable_witness :
    BookingService.postBooking wsBase 1 9 = (.error .notFound, wsBase) ∧
    BookingService.putBooking wsBase 2 9 1 = (.error .notFound, wsBase) :=
  ⟨(empty_room_never_bookable wsBase 1 9).1
      { userId := 1, status := .PAID,
        TicketType := { isRemote := false, includesHotel := true } }
      { id := 9, hotelId := 1, name := "901", capacity := 2, createdAt := 0, updatedAt := 0 }
      (by decide) (by decide) (by decide) (by decide),
   (empty_room_never_bookable wsBase 2 9).2.1
      { id := 1, userId := 2, roomId := 7, createdAt := 0, updatedAt := 0 }
      { id := 9, hotelId := 1, name := "901", capacity := 2, createdAt := 0, updatedAt := 0 }
      (by decide) (by decide) (by decide)⟩

/-- A successful room-capacity validation pins down the room row the
foreign key embeds in the bookings of the validated room. -/
theorem validateBookingByRoomId_ok_room (s : DbState) (r : Nat) (bs : List Booking)
    (h : BookingService.validateBookingByRoomId s r = .ok bs) :
    ∃ room, s.rooms.find? (fun x => x.id == r) = some room := by
  unfold BookingService.validateBookingByRoomId at h
  cases hbs : bookingRepository.findBookingByRoomId s r with
  | nil => simp [hbs] at h
  | cons b0 rest =>
    have hb0 : b0.roomId = r := by
      have hmem : b0 ∈ bookingRepository.findBookingByRoomId s r := by
        rw [hbs]
        exact List.mem_cons_self _ _
      unfold bookingRepository.findBookingByRoomId at hmem
      simpa using List.of_mem_filter hmem
    simp only [hbs] at h
    cases hro : roomOfBooking s b0 with
    | none => rw [hro] at h; simp at h
    | some room =>
      refine ⟨room, ?_⟩
      unfold roomOfBooking at hro
      rw [hb0] at hro
      exact hro

/-- C6: when `postBooking` succeeds with id `i`, the room row of `roomId`
exists and `getBookingByUserId` on the resulting store returns a response
whose id is `i` and whose embedded Room is that room. -/
theorem postBooking_then_get (s : DbState) (u r i : Nat)
    (h : (BookingService.postBooking s u r).1 = .ok i) :
    ∃ room, roomRepository.listRoom s r = some room ∧
      (BookingService.getBookingByUserId (BookingService.postBooking s u r).2 u).1 =
        .ok { id := i, Room := some room } := by
  unfold BookingService.postBooking at h
  rcases h1 : BookingService.validateTicket s u with e | t
  · simp [h1] at h
  rcases h2 : BookingService.validateBookingByRoomId s r with e | bs
  · simp [h1, h2] at h
  rcases h3 : BookingService.validateBookingByUserId s u with e | u3
  · simp [h1, h2, h3] at h
  simp only [h1, h2, h3, bookingRepository.insertBooking] at h
  have hi : s.nextBookingId = i := by simpa using h
  obtain ⟨room, hroom⟩ := validateBookingByRoomId_ok_room s r bs h2
  refine ⟨room, hroom, ?_⟩
  have hnone : bookingRepository.findBookingByUserId s u = none := by
    unfold BookingService.validateBookingByUserId at h3
    cases hf : bookingRepository.findBookingByUserId s u
    · rfl
    · rw [hf] at h3
      simp at h3
  have hstate : (BookingService.postBooking s u r).2 =
      (bookingRepository.insertBooking s u r).2 := by
    unfold BookingService.postBooking
    simp [h1, h2, h3, bookingRepository.insertBooking]
  rw [hstate]
  have hnone' : s.bookings.find? (fun b => b.userId == u) = none := hnone
  unfold BookingService.getBookingByUserId bookingRepository.findBookingByUserId
    bookingRepository.insertBooking roomOfBooking
  simp [List.find?_append, hnone', hi, hroom]

/-- Witness for C6 at a concrete store: user 1 books room 7; the post
returns id 10 and a get then shows booking 10 in room 7. -/
theorem postBooking_then_get_witness :
    ∃ room, roomRepository.listRoom wsBase 7 = some room ∧
      (BookingService.getBookingByUserId (BookingService.postBooking wsBase 1 7).2 1).1 =
        .ok { id := 10, Room := some room } :=
  postBooking_then_get wsBase 1 7 10 (by decide)

/-- C7: for POST /booking the controller answers 200 with `{bookingId}`
exactly on success, 401 exactly on UnauthorizedError, 403 exactly on
ForbiddenError and 404 on every other thrown error; for GET /booking every
thrown error becomes 404; for PUT /booking/:bookingId 403 appears exactly
on ForbiddenError, everything else thrown becomes 404, and no 401 is ever
produced. -/
theorem controller_status_mapping (s : DbState) (u r bid : Nat) :
    ((BookingController.postBooking s u r).1.status = 200 ↔
      ∃ i, (BookingService.postBooking s u r).1 = .ok i) ∧
    ((BookingController.postBooking s u r).1.status = 401 ↔
      (BookingService.postBooking s u r).1 = .error .unauthorized) ∧
    ((BookingController.postBooking s u r).1.status = 403 ↔
      (BookingService.postBooking s u r).1 = .error .forbidden) ∧
    (∀ e, (BookingService.postBooking s u r).1 = .error e →
      e ≠ .unauthorized → e ≠ .forbidden →
      (BookingController.postBooking s u r).1.status = 404) ∧
    (∀ i, (BookingService.postBooking s u r).1 = .ok i →
      (BookingController.postBooking s u r).1 = { status := 200, body := some i }) ∧
    (∀ e, (BookingService.getBookingByUserId s u).1 = .error e →
      (BookingController.getBooking s u).1.status = 404) ∧
    ((BookingController.putBooking s u r bid).1.status = 403 ↔
      (BookingService.putBooking s u r bid).1 = .error .forbidden) ∧
    (∀ e, (BookingService.putBooking s u r bid).1 = .error e → e ≠ .forbidden →
      (BookingController.putBooking s u r bid).1.status = 404) ∧
    (BookingController.putBooking s u r bid).1.status ≠ 401 := by
  refine ⟨?_, ?_, ?_, ?_, ?_, ?_, ?_, ?_, ?_⟩
  · unfold BookingController.postBooking
    rcases hp : BookingService.postBooking s u r with ⟨pres, ps⟩
    rcases pres with e | i
    · cases e <;> simp [SvcError.name, httpStatus.OK, httpStatus.UNAUTHORIZED,
        httpStatus.FORBIDDEN, httpStatus.NOT_FOUND]
    · simp [httpStatus.OK]
  · unfold BookingController.postBooking
    rcases hp : BookingService.postBooking s u r with ⟨pres, ps⟩
    rcases pres with e | i
    · cases e <;> simp [SvcError.name, httpStatus.OK, httpStatus.UNAUTHORIZED,
        httpStatus.FORBIDDEN, httpStatus.NOT_FOUND]
    · simp [httpStatus.OK]
  · unfold BookingController.postBooking
    rcases hp : BookingService.postBooking s u r with ⟨pres, ps⟩
    rcases pres with e | i
    · cases e <;> simp [SvcError.name, httpStatus.OK, httpStatus.UNAUTHORIZED,
        httpStatus.FORBIDDEN, httpStatus.NOT_FOUND]
    · simp [httpStatus.OK]
  · unfold BookingController.postBooking
    rcases hp : BookingService.postBooking s u r with ⟨pres, ps⟩
    rcases pres with e | i
    · cases e <;> simp [SvcError.name, httpStatus.UNAUTHORIZED,
        httpStatus.FORBIDDEN, httpStatus.NOT_FOUND]
    · simp
  · unfold BookingController.postBooking
    rcases hp : BookingService.postBooking s u r with ⟨pres, ps⟩
    rcases pres with e | i
    · simp
    · simp [httpStatus.OK]
  · unfold BookingController.getBooking
    rcases hg : BookingService.getBookingByUserId s u with ⟨gres, gs⟩
    rcases gres with e | b
    · simp [httpStatus.NOT_FOUND]
    · simp
  · unfold BookingController.putBooking
    rcases hq : BookingService.putBooking s u r bid with ⟨qres, qs⟩
    rcases qres with e | b
    · cases e <;> simp [SvcError.name, httpStatus.OK,
        httpStatus.FORBIDDEN, httpStatus.NOT_FOUND]
    · simp [httpStatus.OK]
  · unfold BookingController.putBooking
    rcases hq : BookingService.putBooking s u r bid with ⟨qres, qs⟩
    rcases qres with e | b
    · cases e <;> simp [SvcError.name, httpStatus.FORBIDDEN, httpStatus.NOT_FOUND]
    · simp
  · unfold BookingController.putBooking
    rcases hq : BookingService.putBooking s u r bid with ⟨qres, qs⟩
    rcases qres with e | b
    · cases e <;> simp [SvcError.name, httpStatus.OK,
        httpStatus.FORBIDDEN, httpStatus.NOT_FOUND]
    · simp [httpStatus.OK]

/-- Witness for C7 at a concrete store: an ineligible post gets HTTP 401
and a put by a bookingless user gets HTTP 403. -/
theorem controller_status_mapping_witness :
    (BookingController.postBooking wsBase 4 8).1.status = 401 ∧
    (BookingController.putBooking wsBase 5 7 1).1.status = 403 :=
  ⟨(controller_status_mapping wsBase 4 8 1).2.1.mpr (by decide),
   (controller_status_mapping wsBase 5 7 1).2.2.2.2.2.2.1.mpr (by decide)⟩

/-- In a list whose key image is duplicate-free, searching by an element's
key finds that element. -/
theorem find?_key_of_nodup {α β : Type} [DecidableEq β] (f : α → β)
    (l : List α) (a : α) (hnd : (l.map f).Nodup) (ha : a ∈ l) :
    l.find? (fun x => f x == f a) = some a := by
  induction l with
  | nil => cases ha
  | cons b t ih =>
    simp only [List.map_cons, List.nodup_cons] at hnd
    rcases List.mem_cons.mp ha with rfl | hat
    · simp [List.find?]
    · have hneq : (f b == f a) = false := by
        rw [beq_eq_false_iff_ne]
        intro he
        exact hnd.1 (he ▸ List.mem_map_of_mem f hat)
      simp only [List.find?, hneq]
      exact ih hnd.2 hat

/-- A count over a predicate implied by the union of two others is bounded
by the sum of their counts. -/
theorem countP_le_add_of_imp {α : Type} (p q w : α → Bool) (l : List α)
    (h : ∀ x ∈ l, p x = true → q x = true ∨ w x = true) :
    l.countP p ≤ l.countP q + l.countP w := by
  induction l with
  | nil => simp
  | cons a t ih =>
    have ht := ih (fun x hx hp => h x (List.mem_cons_of_mem a hx) hp)
    rw [List.countP_cons, List.countP_cons, List.countP_cons]
    by_cases hp : p a = true
    · rcases h a (List.mem_cons_self a t) hp with hq | hw
      · simp [hp, hq]
        omega
      · simp [hp, hw]
        omega
    · simp [hp]
      omega

/-- With duplicate-free booking ids, at most one booking row carries a
given id. -/
theorem countP_booking_id_le_one (s : DbState) (bid : Nat) :
    s.bookings.countP (fun x => x.id == bid) ≤ 1 := by
  have hmap : s.bookings.countP (fun x => x.id == bid) =
      List.count bid (s.bookings.map Booking.id) := by
    rw [List.count_eq_countP, List.countP_map]
    rfl
  rw [hmap]
  exact List.nodup_iff_count_le_one.mp s.bookings_nodup bid

/-- A successful room-capacity validation leaves at least one free slot:
the room row exists and its capacity exceeds the booking count. -/
theorem validateBookingByRoomId_ok_capacity (s : DbState) (r : Nat) (bs : List Booking)
    (h : BookingService.validateBookingByRoomId s r = .ok bs) :
    ∃ room, s.rooms.find? (fun x => x.id == r) = some room ∧
      ((bookingRepository.findBookingByRoomId s r).length : Int) + 1 ≤ room.capacity := by
  unfold BookingService.validateBookingByRoomId at h
  cases hbs : bookingRepository.findBookingByRoomId s r with
  | nil => simp [hbs] at h
  | cons b0 rest =>
    have hb0 : b0.roomId = r := by
      have hmem : b0 ∈ bookingRepository.findBookingByRoomId s r := by
        rw [hbs]
        exact List.mem_cons_self _ _
      unfold bookingRepository.findBookingByRoomId at hmem
      simpa using List.of_mem_filter hmem
    simp only [hbs] at h
    cases hro : roomOfBooking s b0 with
    | none => rw [hro] at h; simp at h
    | some room =>
      by_cases hcond : room.capacity - ((b0 :: rest).length : Int) < 1
      · rw [hro] at h
        simp only [List.length_cons] at hcond
        push_cast at hcond
        simp [hcond] at h
      · refine ⟨room, ?_, ?_⟩
        · unfold roomOfBooking at hro
          rw [hb0] at hro
          exact hro
        · omega

/-- `insertBooking` keeps every room within capacity when the validation
of the target room has just succeeded. -/
theorem insertBooking_preserves_capacity (s : DbState) (u r : Nat) (bs : List Booking)
    (hok : BookingService.validateBookingByRoomId s r = .ok bs)
    (hcap : roomCapacityInvariant s) :
    roomCapacityInvariant (bookingRepository.insertBooking s u r).2 := by
  obtain ⟨room0, hfind0, hcap0⟩ := validateBookingByRoomId_ok_capacity s r bs hok
  intro room hmem
  have hrooms : (bookingRepository.insertBooking s u r).2.rooms = s.rooms := rfl
  have hbook : (bookingRepository.insertBooking s u r).2.bookings =
      s.bookings ++
        [{ id := s.nextBookingId, userId := u, roomId := r,
           createdAt := 0, updatedAt := 0 }] := rfl
  rw [hrooms] at hmem
  rw [hbook, List.filter_append, List.length_append]
  by_cases hb : r = room.id
  · subst hb
    have h1 : s.rooms.find? (fun x => x.id == room.id) = some room :=
      find?_key_of_nodup Room.id s.rooms room s.rooms_nodup hmem
    have hre : room = room0 := by
      rw [h1] at hfind0
      exact Option.some.inj hfind0
    have hlen : (bookingRepository.findBookingByRoomId s room.id).length =
        (s.bookings.filter (fun b => b.roomId == room.id)).length := rfl
    rw [hlen] at hcap0
    have hone : (List.filter (fun b => b.roomId == room.id)
        [({ id := s.nextBookingId, userId := u, roomId := room.id,
            createdAt := 0, updatedAt := 0 } : Booking)]).length = 1 := by
      simp
    rw [hone]
    rw [← hre] at hcap0
    push_cast
    omega
  · have hzero : (List.filter (fun b => b.roomId == room.id)
        [({ id := s.nextBookingId, userId := u, roomId := r,
            createdAt := 0, updatedAt := 0 } : Booking)]).length = 0 := by
      simp [hb]
    rw [hzero]
    have := hcap room hmem
    push_cast
    push_cast at this
    omega

/-- `insertBooking` keeps one booking per user when the user had none. -/
theorem insertBooking_preserves_oneBooking (s : DbState) (u r : Nat)
    (hnone : bookingRepository.findBookingByUserId s u = none)
    (hone : oneBookingPerUser s) :
    oneBookingPerUser (bookingRepository.insertBooking s u r).2 := by
  unfold oneBookingPerUser
  have hbook : (bookingRepository.insertBooking s u r).2.bookings =
      s.bookings ++
        [{ id := s.nextBookingId, userId := u, roomId := r,
           createdAt := 0, updatedAt := 0 }] := rfl
  rw [hbook, List.pairwise_append]
  refine ⟨hone, List.pairwise_singleton _ _, ?_⟩
  intro a ha b hb
  simp only [List.mem_singleton] at hb
  subst hb
  unfold bookingRepository.findBookingByUserId at hnone
  have hne := List.find?_eq_none.mp hnone a ha
  simpa using hne

/-- `updateBooking` keeps every room within capacity when the validation
of the target room has just succeeded: the moved booking adds at most one
row to the target room and removes rows elsewhere. -/
theorem updateBooking_preserves_capacity (s : DbState) (bid r : Nat) (bs : List Booking)
    (hok : BookingService.validateBookingByRoomId s r = .ok bs)
    (hcap : roomCapacityInvariant s) :
    roomCapacityInvariant (bookingRepository.updateBooking s bid r).2 := by
  obtain ⟨room0, hfind0, hcap0⟩ := validateBookingByRoomId_ok_capacity s r bs hok
  unfold bookingRepository.updateBooking
  cases hf : s.bookings.find? (fun b => b.id == bid) with
  | none => exact hcap
  | some b2 =>
    intro room hmem
    show ((List.filter (fun b => b.roomId == room.id)
        (s.bookings.map
          (fun x => if x.id == bid then { x with roomId := r } else x))).length : Int) ≤
      room.capacity
    rw [← List.countP_eq_length_filter, List.countP_map]
    by_cases hq : r = room.id
    · subst hq
      have h1 : s.rooms.find? (fun x => x.id == room.id) = some room :=
        find?_key_of_nodup Room.id s.rooms room s.rooms_nodup hmem
      have hre : room = room0 := by
        rw [h1] at hfind0
        exact Option.some.inj hfind0
      have hb1 : s.bookings.countP
          ((fun b => b.roomId == room.id) ∘
            (fun x => if x.id == bid then { x with roomId := room.id } else x)) ≤
          s.bookings.countP (fun x => x.roomId == room.id) +
          s.bookings.countP (fun x => x.id == bid) := by
        apply countP_le_add_of_imp
        intro x _ hpf
        by_cases hxid : x.id = bid
        · right
          simpa using hxid
        · left
          simpa [Function.comp, hxid] using hpf
      have hb2 := countP_booking_id_le_one s bid
      have hlen : (bookingRepository.findBookingByRoomId s room.id).length =
          s.bookings.countP (fun x => x.roomId == room.id) := by
        unfold bookingRepository.findBookingByRoomId
        rw [← List.countP_eq_length_filter]
      rw [hlen] at hcap0
      rw [← hre] at hcap0
      omega
    · have hmono : s.bookings.countP
          ((fun b => b.roomId == room.id) ∘
            (fun x => if x.id == bid then { x with roomId := r } else x)) ≤
          s.bookings.countP (fun x => x.roomId == room.id) := by
        apply List.countP_mono_left
        intro x _ hpf
        by_cases hxid : x.id = bid
        · exfalso
          simp [Function.comp, hxid] at hpf
          exact hq (by simpa using hpf)
        · simpa [Function.comp, hxid] using hpf
      have := hcap room hmem
      rw [← List.countP_eq_length_filter] at this
      omega

/-- `updateBooking` does not change who owns which booking. -/
theorem updateBooking_preserves_oneBooking (s : DbState) (bid r : Nat)
    (hone : oneBookingPerUser s) :
    oneBookingPerUser (bookingRepository.updateBooking s bid r).2 := by
  unfold bookingRepository.updateBooking
  cases hf : s.bookings.find? (fun b => b.id == bid) with
  | none => exact hone
  | some b2 =>
    show (s.bookings.map
        (fun x => if x.id == bid then { x with roomId := r } else x)).Pairwise
      (fun b1 b2 => b1.userId ≠ b2.userId)
    rw [List.pairwise_map]
    refine List.Pairwise.imp ?_ hone
    intro a b hab
    have ha : ((if a.id == bid then { a with roomId := r } else a) : Booking).userId =
        a.userId := by
      by_cases h : a.id = bid <;> simp [h]
    have hb : ((if b.id == bid then { b with roomId := r } else b) : Booking).userId =
        b.userId := by
      by_cases h : b.id = bid <;> simp [h]
    rw [ha, hb]
    exact hab

/-- The store `postBooking` returns is the input store (any guard failed)
or the insert result after the room validation and user-uniqueness checks
passed. -/
theorem postBooking_state (s : DbState) (u r : Nat) :
    (BookingService.postBooking s u r).2 = s ∨
    (∃ bs, BookingService.validateBookingByRoomId s r = .ok bs ∧
      bookingRepository.findBookingByUserId s u = none ∧
      (BookingService.postBooking s u r).2 = (bookingRepository.insertBooking s u r).2) := by
  unfold BookingService.postBooking
  rcases h1 : BookingService.validateTicket s u with e | t
  · left; rfl
  rcases h2 : BookingService.validateBookingByRoomId s r with e | bs
  · left; rfl
  rcases h3 : BookingService.validateBookingByUserId s u with e | u3
  · left; rfl
  right
  refine ⟨bs, rfl, ?_, rfl⟩
  unfold BookingService.validateBookingByUserId at h3
  cases hf : bookingRepository.findBookingByUserId s u
  · rfl
  · rw [hf] at h3
    simp at h3

/-- The store `putBooking` returns is the input store (any check failed)
or the update result after the room validation passed. -/
theorem putBooking_state (s : DbState) (u r bid : Nat) :
    (BookingService.putBooking s u r bid).2 = s ∨
    (∃ bs, BookingService.validateBookingByRoomId s r = .ok bs ∧
      (BookingService.putBooking s u r bid).2 =
        (bookingRepository.updateBooking s bid r).2) := by
  unfold BookingService.putBooking
  rcases h1 : BookingService.checkUserHasBooking s u with e | b1
  · left; rfl
  rcases h2 : BookingService.checkRoomExists s r with e | room
  · left; rfl
  rcases h3 : BookingService.checkBookingExists s bid with e | b3
  · left; rfl
  by_cases hid : (b1.id != b3.id) = true
  · left
    simp [hid]
  rcases h4 : BookingService.validateBookingByRoomId s r with e | bs
  · left
    simp [hid]
  right
  refine ⟨bs, rfl, ?_⟩
  rcases hup : bookingRepository.updateBooking s bid r with ⟨ob, s2⟩
  cases ob <;> simp [hid, hup]

/-- C8: both intended invariants — per-room booking count bounded by
capacity, and one booking per user — are preserved by any sequential call
to `postBooking` or `putBooking`, whether it succeeds or throws. -/
theorem booking_ops_preserve_invariants (s : DbState) (u r bid : Nat)
    (hcap : roomCapacityInvariant s) (hone : oneBookingPerUser s) :
    (roomCapacityInvariant (BookingService.postBooking s u r).2 ∧
     oneBookingPerUser (BookingService.postBooking s u r).2) ∧
    (roomCapacityInvariant (BookingService.putBooking s u r bid).2 ∧
     oneBookingPerUser (BookingService.putBooking s u r bid).2) := by
  constructor
  · rcases postBooking_state s u r with hps | ⟨bs, hok, hnone, hps⟩
    · rw [hps]
      exact ⟨hcap, hone⟩
    · rw [hps]
      exact ⟨insertBooking_preserves_capacity s u r bs hok hcap,
             insertBooking_preserves_oneBooking s u r hnone hone⟩
  · rcases putBooking_state s u r bid with hps | ⟨bs, hok, hps⟩
    · rw [hps]
      exact ⟨hcap, hone⟩
    · rw [hps]
      exact ⟨updateBooking_preserves_capacity s bid r bs hok hcap,
             updateBooking_preserves_oneBooking s bid r hone⟩

/-- Witness for C8 at a concrete store satisfying both invariants: after
user 1 books room 7 both invariants still hold on the new store. -/
theorem booking_ops_preserve_invariants_witness :
    roomCapacityInvariant (BookingService.postBooking wsBase 1 7).2 ∧
    oneBookingPerUser (BookingService.postBooking wsBase 1 7).2 :=
  (booking_ops_preserve_invariants wsBase 1 7 1
    (by unfold roomCapacityInvariant; decide)
    (by unfold oneBookingPerUser; decide)).1

end Drivent
